import Mathlib

/-!
Verification model of the orderflow VPS repository.

The development shallowly embeds three parts of the source:

1. The per-symbol depth synchronization engine (class OrderBookEngine in
   src/test_binance.js): its state, processEvent, the snapshot operation
   initSnapshot with its buffer replay, and the book read path used by the
   downstream validity gate in src/unnamed/part_000 (useBinanceSocket).
2. The proxy server snapshot fetcher and REST depth handler
   (src/server/index.ts): fetchBinanceDepth and the GET /api/depth/:symbol
   handler, together with the per-symbol rate-limit record.
3. The per-frame WebSocket filter of the proxy (src/server/index.ts,
   the upstream message handler).

Modelling conventions: decimal price and quantity strings are represented by
their parsed rational values (the code parses with parseFloat and compares
numerically; no claim here depends on the verbatim-string key nuance).
JavaScript Map objects become association lists whose set operation replaces
in place and whose delete operation filters, matching insertion-order
semantics. Network effects are oracle parameters: a fetch outcome value says
what the upstream returned. Depth events reaching OrderBookEngine.processEvent
come from the depth stream (useBinanceSocket routes only depth payloads to
the engine), so events carry numeric U and u fields and level arrays b and a,
matching the depthUpdate schema.
-/

/-- A book side: association list from price to quantity, in insertion order
(models a JavaScript Map from price string to number). -/
abbrev Book := List (Rat × Rat)

/-- A depth diff event as consumed by OrderBookEngine.processEvent: first
update id U, final update id u, bid levels b, ask levels a. -/
structure Ev where
  U : Nat
  u : Nat
  b : List (Rat × Rat)
  a : List (Rat × Rat)
deriving DecidableEq

/-- A REST depth snapshot payload as used by OrderBookEngine.initSnapshot. -/
structure EngineSnap where
  lastUpdateId : Nat
  bids : List (Rat × Rat)
  asks : List (Rat × Rat)
deriving DecidableEq

/-- Outcome of the snapshot fetch inside OrderBookEngine.initSnapshot:
HTTP 429/418, another non-success status, a JSON parse failure, an invalid
payload structure, a network error, or a parsed payload. -/
inductive SnapOutcome where
  | httpRateLimited
  | httpOther
  | parseFail
  | badStructure
  | netError
  | success (snap : EngineSnap)
deriving DecidableEq

/-- State of one OrderBookEngine instance (the fields of the class that the
claims concern; instanceId, lastResyncAt and the retry timer handle carry no
book semantics and are omitted). -/
structure EngineState where
  symbol : String
  bids : Book
  asks : Book
  lastUpdateId : Nat
  isSynced : Bool
  buffer : List Ev
  resyncInFlight : Bool
  needsResync : Bool
  degraded : Bool
  snapshotBackoffMs : Nat
deriving DecidableEq

namespace OrderBookEngine

/-- MAX_BUFFER_SIZE in src/test_binance.js. -/
def maxBufferSize : Nat := 2000

/-- maxBackoffMs of OrderBookEngine. -/
def maxBackoffMs : Nat := 30000

/-- minBackoffMs of OrderBookEngine. -/
def minBackoffMs : Nat := 2000

/-- The constructor: empty maps, lastUpdateId 0, not synced, empty buffer,
no resync in flight, needsResync true, not degraded, backoff at minimum. -/
def engineInit (symbol : String) : EngineState :=
  { symbol := symbol
    bids := []
    asks := []
    lastUpdateId := 0
    isSynced := false
    buffer := []
    resyncInFlight := false
    needsResync := true
    degraded := false
    snapshotBackoffMs := minBackoffMs }

/-- Map.set: replace the value at an existing key in place, otherwise append. -/
def setLevel (book : Book) (p q : Rat) : Book :=
  if book.any (fun l => l.1 == p) then
    book.map (fun l => if l.1 == p then (p, q) else l)
  else
    book ++ [(p, q)]

/-- Map.delete: remove every pair with the given key. -/
def delLevel (book : Book) (p : Rat) : Book :=
  book.filter (fun l => l.1 != p)

/-- OrderBookEngine.applyUpdate: for each (price, qty), delete the level when
the parsed quantity equals 0, otherwise set it. -/
def applyUpdate : List (Rat × Rat) → Book → Book
  | [], book => book
  | (p, q) :: rest, book => applyUpdate rest (if q = 0 then delLevel book p else setLevel book p q)

/-- The forEach loop loading snapshot levels in initSnapshot: every level is
set verbatim (there is no zero-quantity filter on this path). -/
def loadLevelsAux : List (Rat × Rat) → Book → Book
  | [], book => book
  | (p, q) :: rest, book => loadLevelsAux rest (setLevel book p q)

/-- Loading snapshot levels in initSnapshot: clear the map, then set each
level in order. -/
def loadLevels (levels : List (Rat × Rat)) : Book :=
  loadLevelsAux levels []

/-- OrderBookEngine.addToBuffer: when the buffer already holds at least
MAX_BUFFER_SIZE events, drop the oldest ten percent, then push. The shape
guard (numeric u and U) always passes for depth events. -/
def addToBuffer (buf : List Ev) (e : Ev) : List Ev :=
  (if maxBufferSize ≤ buf.length then buf.drop (maxBufferSize / 10) else buf) ++ [e]

/-- One insertion step of the stable ascending sort by final update id u. -/
def insertEv (e : Ev) : List Ev → List Ev
  | [] => [e]
  | x :: xs => if e.u < x.u then e :: x :: xs else x :: insertEv e xs

/-- buffer.sort((a, b) => a.u - b.u): stable sort ascending by u (later
buffered events land after earlier ones with an equal u). -/
def sortByU (l : List Ev) : List Ev :=
  l.foldl (fun acc e => insertEv e acc) []

/-- The search condition of the first replay loop: event.U <= lastUpdateId + 1
and event.u >= lastUpdateId + 1 (events with u <= lastUpdateId are skipped by
the loop, and they cannot satisfy the second conjunct anyway). -/
def straddles (lid : Nat) (e : Ev) : Bool :=
  decide (e.U ≤ lid + 1) && decide (lid + 1 ≤ e.u)

/-- Result of the second replay loop: success flag plus the mutated book
sides and lastUpdateId (events applied before a failure stay applied). -/
structure ReplayResult where
  ok : Bool
  bids : Book
  asks : Book
  lastUpdateId : Nat
deriving DecidableEq

/-- The apply loop of OrderBookEngine.replayBuffer from the start index on:
an event whose U exceeds lastUpdateId + 1 fails the replay on the spot; an
event with u <= lastUpdateId is passed over without being applied; any other
event is applied and advances lastUpdateId to its u. -/
def replayLoop : List Ev → Book → Book → Nat → ReplayResult
  | [], b, a, lid => ⟨true, b, a, lid⟩
  | e :: rest, b, a, lid =>
    if lid + 1 < e.U then ⟨false, b, a, lid⟩
    else if lid < e.u then replayLoop rest (applyUpdate e.b b) (applyUpdate e.a a) e.u
    else replayLoop rest b a lid

/-- OrderBookEngine.replayBuffer: empty buffer succeeds at once; otherwise
sort by u, look for the first event satisfying the straddle condition (none
found clears the buffer and fails), then run the apply loop; the buffer is
cleared on every exit path. -/
def replayBuffer (s : EngineState) : Bool × EngineState :=
  if s.buffer = [] then (true, s)
  else
    let sorted := sortByU s.buffer
    match sorted.findIdx? (straddles s.lastUpdateId) with
    | none => (false, { s with buffer := [] })
    | some i =>
      let r := replayLoop (sorted.drop i) s.bids s.asks s.lastUpdateId
      (r.ok, { s with bids := r.bids, asks := r.asks, lastUpdateId := r.lastUpdateId, buffer := [] })

/-- The steady-state guard at the top of processEvent: a non-empty buffer
while synced with no resync in flight is a leaked buffer and is cleared. -/
def steadyClear (s : EngineState) : EngineState :=
  if s.isSynced ∧ ¬s.resyncInFlight ∧ s.buffer ≠ [] then { s with buffer := [] } else s

/-- The body of processEvent after the steady-state guard. In flight: buffer
the event. Not yet synced and not degraded: seed the book from this event
(depth events always have the valid shape the code tests for), set degraded
and isSynced, keep needsResync. Not synced but degraded: buffer and mark
resync needed. Synced: drop stale events, buffer a gapped event and mark
resync needed, otherwise apply. -/
def processEventCore (s : EngineState) (e : Ev) : EngineState :=
  if s.resyncInFlight then { s with buffer := addToBuffer s.buffer e }
  else if ¬s.isSynced then
    if ¬s.degraded then
      { s with lastUpdateId := e.u
               bids := applyUpdate e.b s.bids
               asks := applyUpdate e.a s.asks
               degraded := true
               isSynced := true
               needsResync := true }
    else
      { s with buffer := addToBuffer s.buffer e, needsResync := true }
  else if e.u ≤ s.lastUpdateId then s
  else if s.lastUpdateId + 1 < e.U then
    { s with buffer := addToBuffer s.buffer e, needsResync := true }
  else
    { s with bids := applyUpdate e.b s.bids
             asks := applyUpdate e.a s.asks
             lastUpdateId := e.u }

/-- OrderBookEngine.processEvent. -/
def processEvent (s : EngineState) (e : Ev) : EngineState :=
  processEventCore (steadyClear s) e

/-- The backoff mutation shared by every failure path of initSnapshot:
double, capped at maxBackoffMs. -/
def backoffDoubled (s : EngineState) : EngineState :=
  { s with snapshotBackoffMs := min (s.snapshotBackoffMs * 2) maxBackoffMs }

/-- The success path of initSnapshot once the payload passed validation:
overwrite lastUpdateId and both book sides from the snapshot, replay the
buffer, and commit or fail accordingly. -/
def snapCommit (s : EngineState) (snap : EngineSnap) : EngineState :=
  let s1 := { s with lastUpdateId := snap.lastUpdateId
                     bids := loadLevels snap.bids
                     asks := loadLevels snap.asks }
  let r := replayBuffer s1
  if r.1 then
    { r.2 with isSynced := true
               needsResync := false
               snapshotBackoffMs := minBackoffMs
               degraded := false }
  else
    { r.2 with isSynced := false, needsResync := true }

/-- The body of initSnapshot past the reentrancy guard, by fetch outcome. -/
def initSnapshotBody (s : EngineState) : SnapOutcome → EngineState
  | .httpRateLimited => backoffDoubled s
  | .httpOther => backoffDoubled s
  | .parseFail => backoffDoubled s
  | .badStructure => backoffDoubled s
  | .netError => { backoffDoubled s with needsResync := true }
  | .success snap =>
    if snap.lastUpdateId = 0 then backoffDoubled s else snapCommit s snap

/-- OrderBookEngine.initSnapshot as one completed operation, parameterized by
the fetch outcome. A second caller while a resync is in flight returns at
once. Failure outcomes double the backoff capped at maxBackoffMs and keep the
book; a network error additionally re-asserts needsResync; a payload whose
lastUpdateId is 0 fails the falsy validity test and is treated as an invalid
structure. On a valid payload the book is overwritten by the snapshot and the
buffer replayed: replay success marks the engine synced, clears needsResync,
resets the backoff and exits degraded mode; replay failure leaves the engine
unsynced with needsResync set. resyncInFlight is restored to false by the
single exit point, so the completed operation leaves it unchanged. -/
def initSnapshot (s : EngineState) (out : SnapOutcome) : EngineState :=
  if s.resyncInFlight then s else initSnapshotBody s out

/-- States reachable from the constructor by processEvent calls and completed
initSnapshot operations. -/
inductive Reachable : EngineState → Prop
  | init (sym : String) : Reachable (engineInit sym)
  | ev {s : EngineState} (e : Ev) : Reachable s → Reachable (processEvent s e)
  | snap {s : EngineState} (out : SnapOutcome) : Reachable s → Reachable (initSnapshot s out)

/-- Every level of the list has a non-negative quantity (the data model of
the spec: quantities are non-negative, 0 meaning removal). -/
def nonnegLevels (ls : List (Rat × Rat)) : Prop := ∀ l ∈ ls, 0 ≤ l.2

/-- Every level of the list has a strictly positive quantity. -/
def posLevels (ls : List (Rat × Rat)) : Prop := ∀ l ∈ ls, 0 < l.2

instance (ls : List (Rat × Rat)) : Decidable (nonnegLevels ls) := by
  unfold nonnegLevels; infer_instance

instance (ls : List (Rat × Rat)) : Decidable (posLevels ls) := by
  unfold posLevels; infer_instance

/-- A well-formed depth diff: all quantities on both sides are non-negative. -/
def WFEv (e : Ev) : Prop := nonnegLevels e.b ∧ nonnegLevels e.a

/-- A well-formed fetch outcome: a successful snapshot carries only strictly
positive quantities (the upstream depth endpoint lists only live levels). -/
def WFOut : SnapOutcome → Prop
  | .success snap => posLevels snap.bids ∧ posLevels snap.asks
  | _ => True

/-- States reachable from the constructor when every processed diff carries
non-negative quantities and every fused snapshot only positive quantities. -/
inductive ReachableWF : EngineState → Prop
  | init (sym : String) : ReachableWF (engineInit sym)
  | ev {s : EngineState} {e : Ev} : ReachableWF s → WFEv e → ReachableWF (processEvent s e)
  | snap {s : EngineState} {out : SnapOutcome} :
      ReachableWF s → WFOut out → ReachableWF (initSnapshot s out)

/-- One level of the sorted book view produced by sortBook: price, size and
the cumulative size from the best level outward. -/
structure BookLevel where
  price : Rat
  size : Rat
  total : Rat
deriving DecidableEq

/-- One insertion step of the numeric key sort of sortBook: ascending for
asks, descending for bids. -/
def insertKey (isAsk : Bool) (x : Rat) : List Rat → List Rat
  | [] => [x]
  | y :: ys => if (if isAsk then x < y else y < x) then x :: y :: ys else y :: insertKey isAsk x ys

/-- The key sort of sortBook. -/
def sortKeys (isAsk : Bool) (l : List Rat) : List Rat :=
  l.foldl (fun acc x => insertKey isAsk x acc) []

/-- book.get(key) with the fallback 0 of sortBook. -/
def lookupQty (book : Book) (p : Rat) : Rat :=
  match book.find? (fun l => l.1 == p) with
  | some l => l.2
  | none => 0

/-- The accumulation loop of sortBook: stop once the result holds limit
levels, skip sizes that are not positive, and carry the cumulative sum. -/
def buildLevels (book : Book) : List Rat → Nat → Rat → List BookLevel
  | [], _, _ => []
  | k :: rest, limit, cum =>
    if limit = 0 then []
    else
      let size := lookupQty book k
      if 0 < size then
        { price := k, size := size, total := cum + size } :: buildLevels book rest (limit - 1) (cum + size)
      else buildLevels book rest limit cum

/-- sortBook of src/components (the helper above class OrderBookEngine). -/
def sortBook (book : Book) (isAsk : Bool) (limit : Nat) : List BookLevel :=
  buildLevels book (sortKeys isAsk (book.map (fun l => l.1))) limit 0

/-- The bids side of OrderBookEngine.getBook. -/
def getBookBids (s : EngineState) (depth : Nat) : List BookLevel :=
  sortBook s.bids false depth

/-- The asks side of OrderBookEngine.getBook. -/
def getBookAsks (s : EngineState) (depth : Nat) : List BookLevel :=
  sortBook s.asks true depth

/-- bids[0]?.price || 0 over the depth-20 view used by useBinanceSocket. -/
def bestBidPrice (s : EngineState) : Rat :=
  match getBookBids s 20 with
  | [] => 0
  | l :: _ => l.price

/-- asks[0]?.price || 0 over the depth-20 view used by useBinanceSocket. -/
def bestAskPrice (s : EngineState) : Rat :=
  match getBookAsks s 20 with
  | [] => 0
  | l :: _ => l.price

/-- The price conjuncts of the downstream book validity gate: both sides
non-empty, both best prices positive, best bid below best ask. -/
def bookPricesOk (s : EngineState) : Bool :=
  decide (getBookBids s 20 ≠ []) && decide (getBookAsks s 20 ≠ []) &&
  decide (0 < bestBidPrice s) && decide (0 < bestAskPrice s) &&
  decide (bestBidPrice s < bestAskPrice s)

/-- The book validity gate of useBinanceSocket (src/unnamed/part_000):
synced, no resync in flight, and the price conjuncts. -/
def bookIsValid (s : EngineState) : Bool :=
  s.isSynced && !s.resyncInFlight && bookPricesOk s

end OrderBookEngine

/-! Proxy server model (src/server/index.ts). -/

namespace ProxyServer

/-- A cached depth snapshot of the proxy (interface DepthCache); the proxy
never parses the level strings, so they stay strings here. -/
structure DepthCache where
  lastUpdateId : Nat
  bids : List (String × String)
  asks : List (String × String)
  cachedAt : Int
deriving DecidableEq

/-- The per-symbol rate-limit record (interface RateLimitState). -/
structure RateLimitState where
  lastRequest : Int
  backoffMs : Nat
deriving DecidableEq

/-- MIN_BACKOFF_MS. -/
def minBackoffMs : Nat := 2000

/-- MAX_BACKOFF_MS. -/
def maxBackoffMs : Nat := 30000

/-- RATE_LIMIT_INTERVAL_MS. -/
def rateLimitIntervalMs : Int := 500

/-- CACHE_TTL_MS. -/
def cacheTtlMs : Int := 5000

/-- The rate-limit record used when the map holds no entry for the symbol. -/
def rateInit : RateLimitState := { lastRequest := 0, backoffMs := minBackoffMs }

/-- What the upstream returned to fetchBinanceDepth: a non-success HTTP
status, an unparseable or structurally invalid payload, a network error, or
a parsed payload observed at time now. -/
inductive FetchOutcome where
  | httpError (status : Nat)
  | malformed
  | netError
  | success (lastUpdateId : Nat) (bids asks : List (String × String)) (now : Int)
deriving DecidableEq

/-- fetchBinanceDepth of src/server/index.ts, as a function of the
per-symbol rate-limit record and the fetch outcome. Only statuses 429 and
418 double the backoff (capped at MAX_BACKOFF_MS); any other non-success
status, a malformed payload and a network error return null with the record
untouched. A payload whose lastUpdateId is 0 fails the falsy validity test
and counts as malformed. Success resets the backoff to MIN_BACKOFF_MS,
stamps lastRequest and returns the fresh cache entry. -/
def fetchBinanceDepth (st : RateLimitState) (out : FetchOutcome) :
    Option DepthCache × RateLimitState :=
  match out with
  | .httpError status =>
    if status = 429 ∨ status = 418 then
      (none, { st with backoffMs := min (st.backoffMs * 2) maxBackoffMs })
    else (none, st)
  | .malformed => (none, st)
  | .netError => (none, st)
  | .success lid bids asks now =>
    if lid = 0 then (none, st)
    else (some { lastUpdateId := lid, bids := bids, asks := asks, cachedAt := now },
          { lastRequest := now, backoffMs := minBackoffMs })

/-- Rate-limit records reachable for one symbol: the default record, then
any sequence of fetchBinanceDepth calls (the REST handler never writes the
record itself; all its writes go through fetchBinanceDepth). -/
inductive RateReachable : RateLimitState → Prop
  | init : RateReachable rateInit
  | fetch {st : RateLimitState} (out : FetchOutcome) :
      RateReachable st → RateReachable (fetchBinanceDepth st out).2

/-- A response of GET /api/depth/:symbol: a JSON body or the 503 with its
retryAfter field. -/
inductive DepthResponse where
  | ok (lastUpdateId : Nat) (bids asks : List (String × String)) (cachedAt : Int) (src : String)
  | unavailable (retryAfter : Nat)
deriving DecidableEq

/-- The effective limit of the handler: Math.min(parseInt(limit) || 1000,
1000). parseInt yielding 0 is falsy, so limit=0 becomes the default 1000;
a missing or unparseable parameter (none) also becomes 1000. -/
def effLimit (limitParam : Option Nat) : Nat :=
  min (match limitParam with
       | some n => if n = 0 then 1000 else n
       | none => 1000) 1000

/-- The GET /api/depth/:symbol handler: when the request is throttled
(within RATE_LIMIT_INTERVAL_MS or within the backoff window) and a cache
entry younger than twice CACHE_TTL_MS exists, serve it; otherwise call
fetchBinanceDepth and serve the fresh data, fall back to any cache entry,
or answer 503 carrying the current backoff. The value returned is the
response, the rate-limit record after the call and the cache after the
call. -/
def depthHandler (st : RateLimitState) (cache : Option DepthCache) (now : Int)
    (limitParam : Option Nat) (out : FetchOutcome) :
    DepthResponse × RateLimitState × Option DepthCache :=
  let limit := effLimit limitParam
  let tsl : Int := now - st.lastRequest
  let throttled : Bool := decide (tsl < rateLimitIntervalMs) || decide (tsl < (st.backoffMs : Int))
  let servable : Option DepthCache :=
    match cache with
    | some c => if now - c.cachedAt < 2 * cacheTtlMs then some c else none
    | none => none
  match throttled, servable with
  | true, some c =>
    (.ok c.lastUpdateId (c.bids.take limit) (c.asks.take limit) c.cachedAt "cache", st, cache)
  | _, _ =>
    match fetchBinanceDepth st out with
    | (some fresh, st1) =>
      (.ok fresh.lastUpdateId (fresh.bids.take limit) (fresh.asks.take limit) fresh.cachedAt "binance",
       st1, some fresh)
    | (none, st1) =>
      match cache with
      | some c =>
        (.ok c.lastUpdateId (c.bids.take limit) (c.asks.take limit) c.cachedAt "cache", st1, some c)
      | none => (.unavailable st1.backoffMs, st1, cache)

/-- The data.s field of an upstream frame once JSON.parse succeeded (none
when the field is absent). -/
structure UpFrame where
  s : Option String
deriving DecidableEq

/-- A downstream client as the filter sees it: connection open or not, and
the subscribed symbol set. -/
structure WsClient where
  isOpen : Bool
  subs : List String
deriving DecidableEq

/-- Symbol extraction as the filter performs it: msg?.data?.s followed by a
truthiness test, so a missing field and the empty string both yield no
symbol. -/
def extractSymbol (f : UpFrame) : Option String :=
  match f.s with
  | some sym => if sym = "" then none else some sym
  | none => none

/-- The per-client forwarding decision of the upstream message handler: a
closed client gets nothing; an unparseable frame (none) is forwarded; a
parsed frame is forwarded exactly when a symbol was extracted and lies in
the subscription set of the client. -/
def forwardToClient (parsed : Option UpFrame) (c : WsClient) : Bool :=
  c.isOpen &&
    (match parsed with
     | none => true
     | some f =>
       match extractSymbol f with
       | some sym => c.subs.contains sym
       | none => false)

end ProxyServer

/-! Concrete states used by counterexamples and witnesses. -/

open OrderBookEngine in
/-- The concrete replay state refuting claim C1: a snapshot with
lastUpdateId 100 and two buffered events with the same final id 102, the
second of which violates the subsequent-event condition u > lastUpdateId at
its turn. -/
def c1ReplayState : EngineState :=
  { engineInit "BTCUSDT" with
      lastUpdateId := 100
      buffer := [⟨100, 102, [(10, 1)], []⟩, ⟨101, 102, [(20, 5)], []⟩] }

open OrderBookEngine in
/-- The concrete synced state refuting the append phrasing of claim C2: a
gapped event is already sitting in the buffer (reachable, e.g., right after
a first gap was detected). -/
def c2GapState : EngineState :=
  { engineInit "BTCUSDT" with
      bids := [(10, 1)]
      asks := [(11, 1)]
      lastUpdateId := 500
      isSynced := true
      needsResync := true
      buffer := [⟨503, 504, [], []⟩] }

open OrderBookEngine in
/-- A synced steady state with lastUpdateId 500, used by witnesses. -/
def synced500 : EngineState :=
  { engineInit "BTCUSDT" with
      bids := [(10, 1)]
      asks := [(11, 1)]
      lastUpdateId := 500
      isSynced := true
      needsResync := false }

open OrderBookEngine in
/-- A synced steady state with lastUpdateId 100, used by witnesses. -/
def synced100 : EngineState :=
  { engineInit "BTCUSDT" with
      bids := [(10, 1)]
      asks := [(11, 1)]
      lastUpdateId := 100
      isSynced := true
      needsResync := false }

/-! Helper lemmas. -/

namespace OrderBookEngine

/-- The buffer is cleared on every exit path of replayBuffer. -/
lemma replayBuffer_clears (s : EngineState) : (replayBuffer s).2.buffer = [] := by
  unfold replayBuffer
  split
  · next h => simpa using h
  · next h =>
    rcases hf : (sortByU s.buffer).findIdx? (straddles s.lastUpdateId) with _ | i <;> simp [hf]

/-- Splitting the replay apply loop at one event: when the loop succeeds on
the earlier events, its behavior at the chosen event is a failure when the
the U of the event exceeds the running lastUpdateId + 1, a silent skip when
the u of the event does not exceed the running lastUpdateId, and an application
otherwise. -/
lemma replayLoop_append (pre : List Ev) (e : Ev) (post : List Ev) (b a : Book) (lid : Nat)
    (h : (replayLoop pre b a lid).ok = true) :
    replayLoop (pre ++ e :: post) b a lid =
      (if (replayLoop pre b a lid).lastUpdateId + 1 < e.U then
        ⟨false, (replayLoop pre b a lid).bids, (replayLoop pre b a lid).asks,
          (replayLoop pre b a lid).lastUpdateId⟩
       else if (replayLoop pre b a lid).lastUpdateId < e.u then
        replayLoop post (applyUpdate e.b (replayLoop pre b a lid).bids)
          (applyUpdate e.a (replayLoop pre b a lid).asks) e.u
       else
        replayLoop post (replayLoop pre b a lid).bids (replayLoop pre b a lid).asks
          (replayLoop pre b a lid).lastUpdateId) := by
  induction pre generalizing b a lid with
  | nil => simp [replayLoop]
  | cons x pre ih =>
    by_cases h1 : lid + 1 < x.U
    · simp [replayLoop, h1] at h
    · by_cases h2 : lid < x.u
      · simp only [replayLoop, if_neg h1, if_pos h2, List.cons_append] at h ⊢
        exact ih _ _ _ h
      · simp only [replayLoop, if_neg h1, if_neg h2, List.cons_append] at h ⊢
        exact ih _ _ _ h

end OrderBookEngine

namespace OrderBookEngine

/-- Extensionality helper: a state whose buffer is empty equals itself with
the buffer field overwritten by the empty list. -/
lemma eq_setBuffer_nil {s : EngineState} (h : s.buffer = []) :
    s = { s with buffer := [] } := by
  cases s
  simp_all

/-- Under isSynced and no resync in flight, the steady-state guard leaves a
state whose buffer is empty and whose other fields are unchanged. -/
lemma steadyClear_synced {s : EngineState} (hs : s.isSynced = true)
    (hr : s.resyncInFlight = false) : steadyClear s = { s with buffer := [] } := by
  unfold steadyClear
  split
  · rfl
  · next h =>
    have hb : s.buffer = [] := by
      by_contra hb
      exact h ⟨by simp [hs], by simp [hr], hb⟩
    exact eq_setBuffer_nil hb

/-- When the buffer is already empty the steady-state guard is the identity. -/
lemma steadyClear_of_empty {s : EngineState} (h : s.buffer = []) :
    steadyClear s = s := by
  unfold steadyClear
  split
  · next hc => exact absurd h hc.2.2
  · rfl

/-- Appending to an empty buffer yields the one-event buffer. -/
lemma addToBuffer_nil (e : Ev) : addToBuffer [] e = [e] := by
  simp [addToBuffer, maxBufferSize]

end OrderBookEngine

open OrderBookEngine in
/-- C1 counterexample. After the straddling event (U=100, u=102) is applied,
the next buffered event (U=101, u=102) violates the stated requirement
u > current.lastUpdateId (102 is not above 102). The claim says the replay
must then fail and return false; the code instead skips the event (its level
(20, 5) is never applied) and the replay returns true. -/
theorem replay_claim1_counterexample :
    (replayBuffer c1ReplayState).1 = true ∧
    (replayBuffer c1ReplayState).2.bids = [(10, 1)] ∧
    (replayBuffer c1ReplayState).2.lastUpdateId = 102 := by
  decide

open OrderBookEngine in
/-- C1 amended: during replay of the buffered events after the straddling
event, each subsequent event is checked against the running lastUpdateId;
a violation of U <= lastUpdateId + 1 fails the replay at once (returning
false, the book keeping the events applied so far), while an event with
u <= lastUpdateId is skipped without being applied and without failing;
any other event is applied and advances lastUpdateId to its u. Moreover the
buffer is cleared on every exit of replayBuffer (success and failure alike). -/
theorem replay_subsequent_events_amended :
    (∀ (pre : List Ev) (e : Ev) (post : List Ev) (b a : Book) (lid : Nat),
      (replayLoop pre b a lid).ok = true →
      replayLoop (pre ++ e :: post) b a lid =
        (if (replayLoop pre b a lid).lastUpdateId + 1 < e.U then
          ⟨false, (replayLoop pre b a lid).bids, (replayLoop pre b a lid).asks,
            (replayLoop pre b a lid).lastUpdateId⟩
         else if (replayLoop pre b a lid).lastUpdateId < e.u then
          replayLoop post (applyUpdate e.b (replayLoop pre b a lid).bids)
            (applyUpdate e.a (replayLoop pre b a lid).asks) e.u
         else
          replayLoop post (replayLoop pre b a lid).bids (replayLoop pre b a lid).asks
            (replayLoop pre b a lid).lastUpdateId)) ∧
    (∀ s : EngineState, (replayBuffer s).2.buffer = []) :=
  ⟨replayLoop_append, replayBuffer_clears⟩

open OrderBookEngine in
/-- Witness for the amended C1 theorem at a concrete input: one event after
an empty earlier segment is applied by the loop. -/
theorem replay_subsequent_events_amended_witness :
    replayLoop [(⟨1, 1, [(10, 1)], []⟩ : Ev)] [] [] 0 = ⟨true, [(10, 1)], [], 1⟩ := by
  have h := replay_subsequent_events_amended.1 [] ⟨1, 1, [(10, 1)], []⟩ [] [] [] 0 rfl
  simpa using h

open OrderBookEngine in
/-- C2 counterexample. On a synced state with no resync in flight whose
buffer is non-empty, processing a gapped diff does not append the diff to
the existing buffer: the steady-state guard first clears the buffer, so the
earlier buffered event is lost and the buffer afterwards holds the gapped
diff alone. -/
theorem gap_after_sync_counterexample :
    c2GapState.isSynced = true ∧ c2GapState.resyncInFlight = false ∧
    500 < (604 : Nat) ∧ 500 + 1 < (600 : Nat) ∧
    (processEvent c2GapState ⟨600, 604, [(12, 1)], []⟩).buffer ≠
      c2GapState.buffer ++ [⟨600, 604, [(12, 1)], []⟩] := by
  decide

open OrderBookEngine in
/-- C2 amended: for every engine state with isSynced true and resyncInFlight
false, processing a diff e with e.u > lastUpdateId and e.U > lastUpdateId + 1
leaves the buffer holding exactly [e] (the steady-state guard clears any
leaked buffer first, so on the empty-buffer steady state this is appending e),
sets needsResync, and leaves bids, asks, lastUpdateId and isSynced unchanged:
the gapped diff is buffered, not applied. -/
theorem gap_after_sync_amended (s : EngineState) (e : Ev)
    (hs : s.isSynced = true) (hr : s.resyncInFlight = false)
    (hu : s.lastUpdateId < e.u) (hU : s.lastUpdateId + 1 < e.U) :
    (processEvent s e).buffer = [e] ∧
    (processEvent s e).needsResync = true ∧
    (processEvent s e).bids = s.bids ∧
    (processEvent s e).asks = s.asks ∧
    (processEvent s e).lastUpdateId = s.lastUpdateId ∧
    (processEvent s e).isSynced = true ∧
    (s.buffer = [] → (processEvent s e).buffer = s.buffer ++ [e]) := by
  have hc : processEvent s e =
      { s with buffer := [e], needsResync := true } := by
    unfold processEvent
    rw [steadyClear_synced hs hr]
    unfold processEventCore
    simp [hs, hr, Nat.not_le.mpr hu, hU, addToBuffer_nil, not_lt_of_lt]
  refine ⟨by rw [hc], by rw [hc], by rw [hc], by rw [hc], by rw [hc], by rw [hc, hs], ?_⟩
  intro hb
  rw [hc, hb]
  rfl

open OrderBookEngine in
/-- Witness for the amended C2 theorem: the spec scenario (SYNCED at
lastUpdateId 500, next diff with U = 503). -/
theorem gap_after_sync_amended_witness :
    (processEvent synced500 ⟨503, 504, [], []⟩).buffer = [⟨503, 504, [], []⟩] ∧
    (processEvent synced500 ⟨503, 504, [], []⟩).needsResync = true := by
  have h := gap_after_sync_amended synced500 ⟨503, 504, [], []⟩ rfl rfl (by decide) (by decide)
  exact ⟨h.1, h.2.1⟩

open OrderBookEngine in
/-- C5: idempotence of diff application. From a synced steady state (synced,
no resync in flight, empty buffer) on which diff e was just applied (e was
fresh and gap-free), processing the same diff again returns the state
unchanged, because the second application is dropped by the u <= lastUpdateId
check. -/
theorem processEvent_idempotent (s : EngineState) (e : Ev)
    (hs : s.isSynced = true) (hr : s.resyncInFlight = false) (hb : s.buffer = [])
    (hu : s.lastUpdateId < e.u) (hU : e.U ≤ s.lastUpdateId + 1) :
    processEvent (processEvent s e) e = processEvent s e := by
  have happ : processEvent s e =
      { s with bids := applyUpdate e.b s.bids, asks := applyUpdate e.a s.asks,
               lastUpdateId := e.u } := by
    unfold processEvent
    rw [steadyClear_of_empty hb]
    unfold processEventCore
    simp [hs, hr, Nat.not_le.mpr hu, Nat.not_lt.mpr hU]
  rw [happ]
  unfold processEvent
  rw [steadyClear_of_empty (by simpa using hb)]
  unfold processEventCore
  simp [hs, hr]

open OrderBookEngine in
/-- Witness for C5 at a concrete synced state and diff. -/
theorem processEvent_idempotent_witness :
    processEvent (processEvent synced100 ⟨101, 101, [(10, 2)], []⟩) ⟨101, 101, [(10, 2)], []⟩ =
      processEvent synced100 ⟨101, 101, [(10, 2)], []⟩ :=
  processEvent_idempotent _ _ rfl rfl rfl (by decide) (by decide)

open OrderBookEngine in
/-- C10: from an unsynced, non-degraded state with no resync in flight, the
first depth diff seeds the book: lastUpdateId becomes e.u, both sides are
seeded by applying the diff levels, degraded and isSynced both become true
while needsResync stays true, and the downstream book validity gate then
reduces to its price conjuncts alone, so it can hold on a book seeded from a
single diff with no snapshot ever fused. -/
theorem degraded_seeding_sets_synced (s : EngineState) (e : Ev)
    (hs : s.isSynced = false) (hd : s.degraded = false) (hr : s.resyncInFlight = false) :
    (processEvent s e).lastUpdateId = e.u ∧
    (processEvent s e).bids = applyUpdate e.b s.bids ∧
    (processEvent s e).asks = applyUpdate e.a s.asks ∧
    (processEvent s e).degraded = true ∧
    (processEvent s e).isSynced = true ∧
    (processEvent s e).needsResync = true ∧
    (processEvent s e).resyncInFlight = false ∧
    bookIsValid (processEvent s e) = bookPricesOk (processEvent s e) := by
  have hsc : steadyClear s = s := by
    unfold steadyClear
    split
    · next h => rw [hs] at h; exact absurd h.1 (by simp)
    · rfl
  have hc : processEvent s e =
      { s with lastUpdateId := e.u
               bids := applyUpdate e.b s.bids
               asks := applyUpdate e.a s.asks
               degraded := true
               isSynced := true
               needsResync := true } := by
    unfold processEvent
    rw [hsc]
    unfold processEventCore
    simp [hs, hd, hr]
  rw [hc]
  refine ⟨rfl, rfl, rfl, rfl, rfl, rfl, by simpa using hr, ?_⟩
  simp [bookIsValid, hr]

open OrderBookEngine in
/-- Witness for C10: seeding the fresh engine from one diff carrying one bid
and one ask level makes the gate evaluate to true without any snapshot. -/
theorem degraded_seeding_sets_synced_witness :
    (processEvent (engineInit "BTCUSDT") ⟨5, 5, [(10, 1)], [(11, 1)]⟩).isSynced = true ∧
    (processEvent (engineInit "BTCUSDT") ⟨5, 5, [(10, 1)], [(11, 1)]⟩).needsResync = true ∧
    bookIsValid (processEvent (engineInit "BTCUSDT") ⟨5, 5, [(10, 1)], [(11, 1)]⟩) = true := by
  have h := degraded_seeding_sets_synced (engineInit "BTCUSDT") ⟨5, 5, [(10, 1)], [(11, 1)]⟩
    rfl rfl rfl
  refine ⟨h.2.2.2.2.1, h.2.2.2.2.2.1, ?_⟩
  rw [h.2.2.2.2.2.2.2]
  decide

namespace ProxyServer

/-- C6: per-frame filtering. For every upstream frame and every connected
open client: a frame that parsed is sent to the client exactly when a symbol
was extracted from data.s and lies in the subscribed set of the client; a frame
whose parse fails is forwarded to every open client. -/
theorem frame_filtering (parsed : Option UpFrame) (c : WsClient)
    (hopen : c.isOpen = true) :
    (∀ f, parsed = some f →
      (forwardToClient parsed c = true ↔
        ∃ sym, extractSymbol f = some sym ∧ sym ∈ c.subs)) ∧
    (parsed = none → forwardToClient parsed c = true) := by
  constructor
  · rintro f rfl
    cases hx : extractSymbol f with
    | none => simp [forwardToClient, hopen, hx]
    | some sym =>
      simp only [forwardToClient, hopen, hx, Bool.true_and]
      constructor
      · intro h
        exact ⟨sym, rfl, by simpa using h⟩
      · rintro ⟨sym2, hsym2, hmem⟩
        injection hsym2 with h2
        subst h2
        simpa using hmem
  · rintro rfl
    simp [forwardToClient, hopen]

/-- Witness for C6: a subscribed open client receives a matching frame, and
an unparseable frame is forwarded to it as well. -/
theorem frame_filtering_witness :
    forwardToClient (some ⟨some "BTCUSDT"⟩) ⟨true, ["BTCUSDT", "ETHUSDT"]⟩ = true ∧
    forwardToClient none ⟨true, ["BTCUSDT", "ETHUSDT"]⟩ = true := by
  constructor
  · exact ((frame_filtering (some ⟨some "BTCUSDT"⟩) ⟨true, ["BTCUSDT", "ETHUSDT"]⟩ rfl).1
      ⟨some "BTCUSDT"⟩ rfl).mpr ⟨"BTCUSDT", rfl, by decide⟩
  · exact (frame_filtering none ⟨true, ["BTCUSDT", "ETHUSDT"]⟩ rfl).2 rfl

end ProxyServer

namespace ProxyServer

/-- C7 counterexample. An HTTP 500 failure of fetchBinanceDepth returns null
but leaves the per-symbol backoff untouched at 2000 ms; the claim requires
the backoff to double to 4000 ms as it does on 429/418. -/
theorem fetch_error_backoff_counterexample :
    fetchBinanceDepth ⟨0, 2000⟩ (.httpError 500) = (none, ⟨0, 2000⟩) ∧
    (fetchBinanceDepth ⟨0, 2000⟩ (.httpError 500)).2.backoffMs ≠
      min (2000 * 2) maxBackoffMs := by
  decide

/-- C7 amended: every failure outcome of fetchBinanceDepth (non-success
status, malformed payload including a falsy lastUpdateId, network error)
returns null, but only HTTP 429 and 418 double the per-symbol backoff capped
at MAX_BACKOFF_MS; the other failures leave the rate-limit record untouched,
so onError does not behave like onRateLimited. -/
theorem fetch_error_classification_amended :
    (∀ (st : RateLimitState) (status : Nat), status ≠ 429 → status ≠ 418 →
      fetchBinanceDepth st (.httpError status) = (none, st)) ∧
    (∀ st : RateLimitState, fetchBinanceDepth st .malformed = (none, st)) ∧
    (∀ st : RateLimitState, fetchBinanceDepth st .netError = (none, st)) ∧
    (∀ (st : RateLimitState) (bids asks : List (String × String)) (now : Int),
      fetchBinanceDepth st (.success 0 bids asks now) = (none, st)) ∧
    (∀ st : RateLimitState,
      fetchBinanceDepth st (.httpError 429) =
        (none, { st with backoffMs := min (st.backoffMs * 2) maxBackoffMs }) ∧
      fetchBinanceDepth st (.httpError 418) =
        (none, { st with backoffMs := min (st.backoffMs * 2) maxBackoffMs })) := by
  refine ⟨?_, fun _ => rfl, fun _ => rfl, fun _ _ _ _ => rfl, fun st => ⟨rfl, rfl⟩⟩
  intro st status h429 h418
  simp [fetchBinanceDepth, h429, h418]

/-- Witness for the amended C7 theorem at concrete failures. -/
theorem fetch_error_classification_amended_witness :
    fetchBinanceDepth ⟨0, 2000⟩ (.httpError 503) = (none, ⟨0, 2000⟩) ∧
    fetchBinanceDepth ⟨0, 2000⟩ .malformed = (none, ⟨0, 2000⟩) ∧
    fetchBinanceDepth ⟨0, 8000⟩ (.httpError 429) = (none, ⟨0, 16000⟩) := by
  refine ⟨fetch_error_classification_amended.1 ⟨0, 2000⟩ 503 (by decide) (by decide),
    fetch_error_classification_amended.2.1 ⟨0, 2000⟩, ?_⟩
  have h := (fetch_error_classification_amended.2.2.2.2 ⟨0, 8000⟩).1
  simpa using h

/-- The concrete handler state refuting claim C8: a fresh cache entry with
one bid and one ask level, served under throttle with limit=0. -/
def c8CacheEntry : DepthCache :=
  { lastUpdateId := 7
    bids := [("10", "1")]
    asks := [("11", "2")]
    cachedAt := 1000 }

/-- C8 counterexample. A request with limit=0 does not get empty bids and
asks: parseInt yields the falsy 0, the handler substitutes the default 1000,
and the response carries the full cached arrays (here one bid and one ask)
next to the valid lastUpdateId. -/
theorem depth_limit_zero_counterexample :
    (depthHandler ⟨900, 2000⟩ (some c8CacheEntry) 1000 (some 0) .netError).1 =
      .ok 7 [("10", "1")] [("11", "2")] 1000 "cache" ∧
    (depthHandler ⟨900, 2000⟩ (some c8CacheEntry) 1000 (some 0) .netError).1 ≠
      .ok 7 [] [] 1000 "cache" := by
  constructor
  · rfl
  · decide

/-- C8 amended: the handler treats limit=0 as the default: Math.min(
parseInt(limit) || 1000, 1000) maps 0 to 1000, so a limit=0 request is
answered exactly like a limit=1000 request (the snapshot arrays truncated to
1000 levels and the lastUpdateId of the snapshot), never with empty arrays. -/
theorem depth_limit_zero_amended (st : RateLimitState) (cache : Option DepthCache)
    (now : Int) (out : FetchOutcome) :
    depthHandler st cache now (some 0) out = depthHandler st cache now (some 1000) out := by
  have h : effLimit (some 0) = effLimit (some 1000) := rfl
  unfold depthHandler
  rw [h]

end ProxyServer

namespace OrderBookEngine

/-- replayBuffer never changes resyncInFlight. -/
lemma replayBuffer_resyncInFlight (s : EngineState) :
    (replayBuffer s).2.resyncInFlight = s.resyncInFlight := by
  unfold replayBuffer
  split
  · rfl
  · rcases hf : (sortByU s.buffer).findIdx? (straddles s.lastUpdateId) with _ | i <;> simp [hf]

/-- replayBuffer never changes the backoff. -/
lemma replayBuffer_backoff (s : EngineState) :
    (replayBuffer s).2.snapshotBackoffMs = s.snapshotBackoffMs := by
  unfold replayBuffer
  split
  · rfl
  · rcases hf : (sortByU s.buffer).findIdx? (straddles s.lastUpdateId) with _ | i <;> simp [hf]

/-- processEvent never changes resyncInFlight. -/
lemma processEvent_resyncInFlight (s : EngineState) (e : Ev) :
    (processEvent s e).resyncInFlight = s.resyncInFlight := by
  unfold processEvent processEventCore steadyClear
  split_ifs <;> rfl

/-- processEvent never changes the backoff. -/
lemma processEvent_backoff (s : EngineState) (e : Ev) :
    (processEvent s e).snapshotBackoffMs = s.snapshotBackoffMs := by
  unfold processEvent processEventCore steadyClear
  split_ifs <;> rfl

/-- snapCommit leaves resyncInFlight as it found it. -/
lemma snapCommit_resyncInFlight (s : EngineState) (snap : EngineSnap) :
    (snapCommit s snap).resyncInFlight = s.resyncInFlight := by
  simp only [snapCommit]
  split_ifs <;> simp [replayBuffer_resyncInFlight]

/-- A completed initSnapshot leaves resyncInFlight as it found it (the
single exit point restores it to false). -/
lemma initSnapshot_resyncInFlight (s : EngineState) (out : SnapOutcome) :
    (initSnapshot s out).resyncInFlight = s.resyncInFlight := by
  unfold initSnapshot
  split
  · rfl
  · cases out with
    | success snap =>
      simp only [initSnapshotBody]
      split_ifs
      · rfl
      · exact snapCommit_resyncInFlight s snap
    | httpRateLimited => rfl
    | httpOther => rfl
    | parseFail => rfl
    | badStructure => rfl
    | netError => rfl

/-- Doubling a backoff within bounds and capping keeps it within bounds. -/
lemma backoff_double_bounds {b : Nat} (h1 : minBackoffMs ≤ b) :
    minBackoffMs ≤ min (b * 2) maxBackoffMs ∧ min (b * 2) maxBackoffMs ≤ maxBackoffMs := by
  unfold minBackoffMs maxBackoffMs at *
  omega

/-- snapCommit keeps the backoff within bounds. -/
lemma snapCommit_backoff_bounds (s : EngineState) (snap : EngineSnap)
    (h1 : minBackoffMs ≤ s.snapshotBackoffMs) (h2 : s.snapshotBackoffMs ≤ maxBackoffMs) :
    minBackoffMs ≤ (snapCommit s snap).snapshotBackoffMs ∧
    (snapCommit s snap).snapshotBackoffMs ≤ maxBackoffMs := by
  simp only [snapCommit]
  split_ifs
  · refine ⟨Nat.le_refl _, ?_⟩
    show minBackoffMs ≤ maxBackoffMs
    decide
  · simpa [replayBuffer_backoff] using ⟨h1, h2⟩

/-- initSnapshot keeps the backoff within bounds. -/
lemma initSnapshot_backoff_bounds (s : EngineState) (out : SnapOutcome)
    (h1 : minBackoffMs ≤ s.snapshotBackoffMs) (h2 : s.snapshotBackoffMs ≤ maxBackoffMs) :
    minBackoffMs ≤ (initSnapshot s out).snapshotBackoffMs ∧
    (initSnapshot s out).snapshotBackoffMs ≤ maxBackoffMs := by
  unfold initSnapshot
  split
  · exact ⟨h1, h2⟩
  · cases out with
    | success snap =>
      simp only [initSnapshotBody]
      split_ifs
      · exact backoff_double_bounds h1
      · exact snapCommit_backoff_bounds s snap h1 h2
    | httpRateLimited => exact backoff_double_bounds h1
    | httpOther => exact backoff_double_bounds h1
    | parseFail => exact backoff_double_bounds h1
    | badStructure => exact backoff_double_bounds h1
    | netError => exact backoff_double_bounds h1

end OrderBookEngine

namespace ProxyServer

/-- fetchBinanceDepth keeps the backoff of the rate-limit record within
bounds. -/
lemma fetch_backoff_bounds (st : RateLimitState) (out : FetchOutcome)
    (h1 : minBackoffMs ≤ st.backoffMs) (h2 : st.backoffMs ≤ maxBackoffMs) :
    minBackoffMs ≤ (fetchBinanceDepth st out).2.backoffMs ∧
    (fetchBinanceDepth st out).2.backoffMs ≤ maxBackoffMs := by
  cases out with
  | httpError status =>
    simp only [fetchBinanceDepth]
    split_ifs
    · dsimp only
      unfold minBackoffMs maxBackoffMs at *
      omega
    · exact ⟨h1, h2⟩
  | malformed => exact ⟨h1, h2⟩
  | netError => exact ⟨h1, h2⟩
  | success lid bids asks now =>
    simp only [fetchBinanceDepth]
    split_ifs
    · exact ⟨h1, h2⟩
    · refine ⟨Nat.le_refl _, ?_⟩
      show minBackoffMs ≤ maxBackoffMs
      decide

end ProxyServer

/-- C9: backoff bounds. Both the snapshotBackoffMs of the engine and the
per-symbol rate-limit backoffMs satisfy MIN_BACKOFF <= backoff <= MAX_BACKOFF
in every reachable state: they start at MIN_BACKOFF, every doubling is capped
at MAX_BACKOFF, and success resets to MIN_BACKOFF. -/
theorem backoff_bounds :
    (∀ s : EngineState, OrderBookEngine.Reachable s →
      OrderBookEngine.minBackoffMs ≤ s.snapshotBackoffMs ∧
      s.snapshotBackoffMs ≤ OrderBookEngine.maxBackoffMs) ∧
    (∀ st : ProxyServer.RateLimitState, ProxyServer.RateReachable st →
      ProxyServer.minBackoffMs ≤ st.backoffMs ∧ st.backoffMs ≤ ProxyServer.maxBackoffMs) := by
  constructor
  · intro s h
    induction h with
    | init sym =>
      exact ⟨Nat.le_refl _, by show OrderBookEngine.minBackoffMs ≤ _; decide⟩
    | ev e h ih => rw [OrderBookEngine.processEvent_backoff]; exact ih
    | snap out h ih => exact OrderBookEngine.initSnapshot_backoff_bounds _ _ ih.1 ih.2
  · intro st h
    induction h with
    | init => exact ⟨Nat.le_refl _, by decide⟩
    | fetch out h ih => exact ProxyServer.fetch_backoff_bounds _ _ ih.1 ih.2

/-- Witness for C9 at the two start states. -/
theorem backoff_bounds_witness :
    (OrderBookEngine.minBackoffMs ≤ (OrderBookEngine.engineInit "BTCUSDT").snapshotBackoffMs ∧
     (OrderBookEngine.engineInit "BTCUSDT").snapshotBackoffMs ≤ OrderBookEngine.maxBackoffMs) ∧
    (ProxyServer.minBackoffMs ≤ ProxyServer.rateInit.backoffMs ∧
     ProxyServer.rateInit.backoffMs ≤ ProxyServer.maxBackoffMs) :=
  ⟨backoff_bounds.1 _ (OrderBookEngine.Reachable.init "BTCUSDT"),
   backoff_bounds.2 _ ProxyServer.RateReachable.init⟩

namespace OrderBookEngine

/-- A state that is not synced passes the steady-state guard unchanged. -/
lemma steadyClear_not_synced {s : EngineState} (hs : s.isSynced = false) :
    steadyClear s = s := by
  unfold steadyClear
  split
  · next h => exact absurd hs (by simp [h.1])
  · rfl

/-- processEvent while a resync is in flight: the event is buffered and
nothing else changes. -/
lemma processEvent_eq_inflight (s : EngineState) (e : Ev) (hinf : s.resyncInFlight = true) :
    processEvent s e = { s with buffer := addToBuffer s.buffer e } := by
  unfold processEvent
  have hsc : steadyClear s = s := by
    unfold steadyClear
    split
    · next h => exact absurd hinf h.2.1
    · rfl
  rw [hsc]
  unfold processEventCore
  simp [hinf]

/-- processEvent on an unsynced, non-degraded engine with no resync in
flight: degraded seeding. -/
lemma processEvent_eq_seed (s : EngineState) (e : Ev) (hs : s.isSynced = false)
    (hd : s.degraded = false) (hr : s.resyncInFlight = false) :
    processEvent s e =
      { s with lastUpdateId := e.u
               bids := applyUpdate e.b s.bids
               asks := applyUpdate e.a s.asks
               degraded := true
               isSynced := true
               needsResync := true } := by
  unfold processEvent
  rw [steadyClear_not_synced hs]
  unfold processEventCore
  simp [hs, hd, hr]

/-- processEvent on an unsynced, degraded engine with no resync in flight:
the event is buffered and needsResync is asserted. -/
lemma processEvent_eq_unsynced_buffer (s : EngineState) (e : Ev) (hs : s.isSynced = false)
    (hd : s.degraded = true) (hr : s.resyncInFlight = false) :
    processEvent s e = { s with buffer := addToBuffer s.buffer e, needsResync := true } := by
  unfold processEvent
  rw [steadyClear_not_synced hs]
  unfold processEventCore
  simp [hs, hd, hr]

/-- processEvent on a synced engine dropping a stale event: only the
steady-state guard acts, so the result is the state with an empty buffer. -/
lemma processEvent_eq_drop (s : EngineState) (e : Ev) (hs : s.isSynced = true)
    (hr : s.resyncInFlight = false) (h1 : e.u ≤ s.lastUpdateId) :
    processEvent s e = { s with buffer := [] } := by
  unfold processEvent
  rw [steadyClear_synced hs hr]
  unfold processEventCore
  simp [hs, hr, h1]

/-- processEvent on a synced engine detecting a gap: the buffer afterwards
holds exactly the gapped event and needsResync is set. -/
lemma processEvent_eq_gap (s : EngineState) (e : Ev) (hs : s.isSynced = true)
    (hr : s.resyncInFlight = false) (h1 : s.lastUpdateId < e.u)
    (h2 : s.lastUpdateId + 1 < e.U) :
    processEvent s e = { s with buffer := [e], needsResync := true } := by
  unfold processEvent
  rw [steadyClear_synced hs hr]
  unfold processEventCore
  simp [hs, hr, Nat.not_le.mpr h1, h2, addToBuffer_nil]

/-- processEvent on a synced engine applying a fresh, gap-free event. -/
lemma processEvent_eq_apply (s : EngineState) (e : Ev) (hs : s.isSynced = true)
    (hr : s.resyncInFlight = false) (h1 : s.lastUpdateId < e.u)
    (h2 : e.U ≤ s.lastUpdateId + 1) :
    processEvent s e =
      { s with buffer := []
               bids := applyUpdate e.b s.bids
               asks := applyUpdate e.a s.asks
               lastUpdateId := e.u } := by
  unfold processEvent
  rw [steadyClear_synced hs hr]
  unfold processEventCore
  simp [hs, hr, Nat.not_le.mpr h1, Nat.not_lt.mpr h2]

/-- The invariant P1 of the spec as a predicate on engine states. -/
def P1 (s : EngineState) : Prop :=
  s.needsResync = false → s.isSynced = true ∧ s.buffer = []

/-- processEvent preserves P1 on states with no resync in flight. -/
lemma processEvent_P1 (s : EngineState) (e : Ev) (hf : s.resyncInFlight = false)
    (_hp : P1 s) : P1 (processEvent s e) := by
  rcases hsy : s.isSynced with _ | _
  · rcases hd : s.degraded with _ | _
    · rw [processEvent_eq_seed s e hsy hd hf]
      intro hnr
      simp at hnr
    · rw [processEvent_eq_unsynced_buffer s e hsy hd hf]
      intro hnr
      simp at hnr
  · by_cases h1 : e.u ≤ s.lastUpdateId
    · rw [processEvent_eq_drop s e hsy hf h1]
      intro hnr
      exact ⟨hsy, rfl⟩
    · by_cases h2 : s.lastUpdateId + 1 < e.U
      · rw [processEvent_eq_gap s e hsy hf (Nat.not_le.mp h1) h2]
        intro hnr
        simp at hnr
      · rw [processEvent_eq_apply s e hsy hf (Nat.not_le.mp h1) (Nat.not_lt.mp h2)]
        intro hnr
        exact ⟨hsy, rfl⟩

/-- A completed initSnapshot preserves P1 on states with no resync in
flight. -/
lemma initSnapshot_P1 (s : EngineState) (out : SnapOutcome) (hf : s.resyncInFlight = false)
    (hp : P1 s) : P1 (initSnapshot s out) := by
  unfold initSnapshot
  rw [if_neg (by simp [hf])]
  cases out with
  | httpRateLimited =>
    intro hnr
    exact hp hnr
  | httpOther =>
    intro hnr
    exact hp hnr
  | parseFail =>
    intro hnr
    exact hp hnr
  | badStructure =>
    intro hnr
    exact hp hnr
  | netError =>
    intro hnr
    simp [initSnapshotBody, backoffDoubled] at hnr
  | success snap =>
    simp only [initSnapshotBody]
    split_ifs with h0
    · intro hnr
      exact hp hnr
    · simp only [snapCommit]
      split_ifs with hok
      · intro hnr
        exact ⟨rfl, replayBuffer_clears _⟩
      · intro hnr
        simp at hnr

/-- Every reachable state has no resync in flight (completed operations
restore the flag) and satisfies P1. -/
lemma reachable_P1 {s : EngineState} (h : Reachable s) :
    s.resyncInFlight = false ∧ P1 s := by
  induction h with
  | init sym => exact ⟨rfl, fun h => by simp [engineInit] at h⟩
  | ev e h ih =>
    refine ⟨by rw [processEvent_resyncInFlight]; exact ih.1, ?_⟩
    exact processEvent_P1 _ e ih.1 ih.2
  | snap out h ih =>
    refine ⟨by rw [initSnapshot_resyncInFlight]; exact ih.1, ?_⟩
    exact initSnapshot_P1 _ out ih.1 ih.2

end OrderBookEngine

open OrderBookEngine in
/-- C3: for every OrderBookEngine state reachable from the constructor by
processEvent calls and completed initSnapshot operations, needsResync false
implies isSynced true and an empty buffer. -/
theorem needsResync_false_implies_synced_empty (s : EngineState)
    (h : OrderBookEngine.Reachable s) (hnr : s.needsResync = false) :
    s.isSynced = true ∧ s.buffer = [] :=
  (reachable_P1 h).2 hnr

open OrderBookEngine in
/-- Witness for C3 at a reachable synced state: the fresh engine after one
successful snapshot fuse has needsResync false, and the theorem yields
isSynced with an empty buffer. -/
theorem needsResync_false_implies_synced_empty_witness :
    (initSnapshot (engineInit "BTCUSDT") (.success ⟨100, [(10, 1)], [(11, 1)]⟩)).isSynced = true ∧
    (initSnapshot (engineInit "BTCUSDT") (.success ⟨100, [(10, 1)], [(11, 1)]⟩)).buffer = [] :=
  needsResync_false_implies_synced_empty _
    (Reachable.snap _ (Reachable.init "BTCUSDT")) (by decide)

namespace OrderBookEngine

/-- setLevel with a positive quantity preserves positivity of the book. -/
lemma setLevel_pos {b : Book} {p q : Rat} (hb : posLevels b) (hq : 0 < q) :
    posLevels (setLevel b p q) := by
  unfold setLevel
  split_ifs
  · intro l hl
    rcases List.mem_map.mp hl with ⟨x, hx, rfl⟩
    split_ifs
    · exact hq
    · exact hb x hx
  · intro l hl
    rcases List.mem_append.mp hl with h | h
    · exact hb l h
    · rcases List.mem_singleton.mp h with rfl
      exact hq

/-- delLevel preserves positivity of the book. -/
lemma delLevel_pos {b : Book} {p : Rat} (hb : posLevels b) :
    posLevels (delLevel b p) := by
  intro l hl
  exact hb l (List.mem_of_mem_filter hl)

/-- applyUpdate with non-negative quantities preserves positivity: zero
quantities delete and the rest are positive sets. -/
lemma applyUpdate_pos {us : List (Rat × Rat)} {b : Book} (hus : nonnegLevels us)
    (hb : posLevels b) : posLevels (applyUpdate us b) := by
  induction us generalizing b with
  | nil => exact hb
  | cons pq us ih =>
    rcases pq with ⟨p, q⟩
    unfold applyUpdate
    apply ih (fun l hl => hus l (List.mem_cons_of_mem _ hl))
    split_ifs with hq
    · exact delLevel_pos hb
    · exact setLevel_pos hb
        (lt_of_le_of_ne (hus (p, q) (List.mem_cons_self _ _)) (Ne.symm hq))

/-- The snapshot loading loop preserves positivity of the accumulator when
every loaded level is positive. -/
lemma loadLevelsAux_pos {ls : List (Rat × Rat)} {b : Book} (hls : posLevels ls)
    (hb : posLevels b) : posLevels (loadLevelsAux ls b) := by
  induction ls generalizing b with
  | nil => exact hb
  | cons pq ls ih =>
    rcases pq with ⟨p, q⟩
    unfold loadLevelsAux
    exact ih (fun l hl => hls l (List.mem_cons_of_mem _ hl))
      (setLevel_pos hb (hls (p, q) (List.mem_cons_self _ _)))

/-- A snapshot whose levels are positive loads into a positive book. -/
lemma loadLevels_pos {ls : List (Rat × Rat)} (hls : posLevels ls) :
    posLevels (loadLevels ls) :=
  loadLevelsAux_pos hls (fun _ h => absurd h (List.not_mem_nil _))

/-- Membership in an insertion step of the sort. -/
lemma mem_insertEv {x e : Ev} {l : List Ev} : x ∈ insertEv e l ↔ x = e ∨ x ∈ l := by
  induction l with
  | nil => simp [insertEv]
  | cons y ys ih =>
    unfold insertEv
    split_ifs
    · simp
    · simp only [List.mem_cons, ih]
      tauto

/-- Membership in the sort fold. -/
lemma mem_sortByU_fold {x : Ev} {l acc : List Ev} :
    x ∈ l.foldl (fun acc e => insertEv e acc) acc ↔ x ∈ acc ∨ x ∈ l := by
  induction l generalizing acc with
  | nil => simp
  | cons y ys ih =>
    simp only [List.foldl_cons, ih, mem_insertEv, List.mem_cons]
    tauto

/-- Sorting the buffer neither adds nor removes events. -/
lemma mem_sortByU {x : Ev} {l : List Ev} : x ∈ sortByU l ↔ x ∈ l := by
  unfold sortByU
  rw [mem_sortByU_fold]
  simp

/-- The replay apply loop keeps both book sides positive when every event in
the list carries non-negative quantities. -/
lemma replayLoop_pos {evs : List Ev} {b a : Book} {lid : Nat}
    (hevs : ∀ e ∈ evs, WFEv e) (hb : posLevels b) (ha : posLevels a) :
    posLevels (replayLoop evs b a lid).bids ∧ posLevels (replayLoop evs b a lid).asks := by
  induction evs generalizing b a lid with
  | nil => exact ⟨hb, ha⟩
  | cons e evs ih =>
    unfold replayLoop
    split_ifs
    · exact ⟨hb, ha⟩
    · exact ih (fun x hx => hevs x (List.mem_cons_of_mem _ hx))
        (applyUpdate_pos (hevs e (List.mem_cons_self _ _)).1 hb)
        (applyUpdate_pos (hevs e (List.mem_cons_self _ _)).2 ha)
    · exact ih (fun x hx => hevs x (List.mem_cons_of_mem _ hx)) hb ha

/-- replayBuffer keeps both book sides positive when the book was positive
and every buffered event carries non-negative quantities. -/
lemma replayBuffer_pos {s : EngineState} (hbuf : ∀ e ∈ s.buffer, WFEv e)
    (hb : posLevels s.bids) (ha : posLevels s.asks) :
    posLevels (replayBuffer s).2.bids ∧ posLevels (replayBuffer s).2.asks := by
  unfold replayBuffer
  split
  · exact ⟨hb, ha⟩
  · rcases hf : (sortByU s.buffer).findIdx? (straddles s.lastUpdateId) with _ | i
    · simpa [hf] using ⟨hb, ha⟩
    · simp only [hf]
      have hdrop : ∀ e ∈ (sortByU s.buffer).drop i, WFEv e := by
        intro e he
        exact hbuf e (mem_sortByU.mp (List.mem_of_mem_drop he))
      have h := @replayLoop_pos _ _ _ s.lastUpdateId hdrop hb ha
      exact ⟨h.1, h.2⟩

/-- Events put into the buffer by addToBuffer are the incoming event or
survivors of the old buffer. -/
lemma addToBuffer_wf {buf : List Ev} {e : Ev} (hbuf : ∀ x ∈ buf, WFEv x)
    (he : WFEv e) : ∀ x ∈ addToBuffer buf e, WFEv x := by
  intro x hx
  unfold addToBuffer at hx
  rcases List.mem_append.mp hx with h | h
  · split_ifs at h
    · exact hbuf x (List.mem_of_mem_drop h)
    · exact hbuf x h
  · rcases List.mem_singleton.mp h with rfl
    exact he

/-- The C4 induction invariant: both book sides positive and every buffered
event well formed. -/
def InvPos (s : EngineState) : Prop :=
  posLevels s.bids ∧ posLevels s.asks ∧ ∀ e ∈ s.buffer, WFEv e

/-- processEvent preserves the positivity invariant for well-formed diffs. -/
lemma processEvent_InvPos (s : EngineState) (e : Ev) (he : WFEv e)
    (h : InvPos s) : InvPos (processEvent s e) := by
  obtain ⟨hb, ha, hbuf⟩ := h
  rcases hinf : s.resyncInFlight with _ | _
  · rcases hsy : s.isSynced with _ | _
    · rcases hd : s.degraded with _ | _
      · rw [processEvent_eq_seed s e hsy hd hinf]
        exact ⟨applyUpdate_pos he.1 hb, applyUpdate_pos he.2 ha, hbuf⟩
      · rw [processEvent_eq_unsynced_buffer s e hsy hd hinf]
        exact ⟨hb, ha, addToBuffer_wf hbuf he⟩
    · by_cases h1 : e.u ≤ s.lastUpdateId
      · rw [processEvent_eq_drop s e hsy hinf h1]
        exact ⟨hb, ha, fun x hx => absurd hx (List.not_mem_nil _)⟩
      · by_cases h2 : s.lastUpdateId + 1 < e.U
        · rw [processEvent_eq_gap s e hsy hinf (Nat.not_le.mp h1) h2]
          refine ⟨hb, ha, fun x hx => ?_⟩
          rcases List.mem_singleton.mp hx with rfl
          exact he
        · rw [processEvent_eq_apply s e hsy hinf (Nat.not_le.mp h1) (Nat.not_lt.mp h2)]
          exact ⟨applyUpdate_pos he.1 hb, applyUpdate_pos he.2 ha,
            fun x hx => absurd hx (List.not_mem_nil _)⟩
  · rw [processEvent_eq_inflight s e hinf]
    exact ⟨hb, ha, addToBuffer_wf hbuf he⟩

/-- A completed initSnapshot preserves the positivity invariant for
well-formed outcomes (snapshots whose levels are all positive). -/
lemma initSnapshot_InvPos (s : EngineState) (out : SnapOutcome) (ho : WFOut out)
    (h : InvPos s) : InvPos (initSnapshot s out) := by
  obtain ⟨hb, ha, hbuf⟩ := h
  unfold initSnapshot
  split
  · exact ⟨hb, ha, hbuf⟩
  · cases out with
    | httpRateLimited => exact ⟨hb, ha, hbuf⟩
    | httpOther => exact ⟨hb, ha, hbuf⟩
    | parseFail => exact ⟨hb, ha, hbuf⟩
    | badStructure => exact ⟨hb, ha, hbuf⟩
    | netError => exact ⟨hb, ha, hbuf⟩
    | success snap =>
      simp only [initSnapshotBody]
      split_ifs with h0
      · exact ⟨hb, ha, hbuf⟩
      · simp only [snapCommit]
        obtain ⟨hsb, hsa⟩ := ho
        have hrep := replayBuffer_pos (s := { s with lastUpdateId := snap.lastUpdateId
                                                     bids := loadLevels snap.bids
                                                     asks := loadLevels snap.asks })
          hbuf (loadLevels_pos hsb) (loadLevels_pos hsa)
        have hclr := replayBuffer_clears { s with lastUpdateId := snap.lastUpdateId
                                                  bids := loadLevels snap.bids
                                                  asks := loadLevels snap.asks }
        split_ifs with hok
        · exact ⟨hrep.1, hrep.2, by rw [hclr]; exact fun x hx => absurd hx (List.not_mem_nil _)⟩
        · exact ⟨hrep.1, hrep.2, by rw [hclr]; exact fun x hx => absurd hx (List.not_mem_nil _)⟩

/-- Every state reachable under well-formed inputs satisfies the positivity
invariant. -/
lemma reachableWF_InvPos {s : EngineState} (h : ReachableWF s) : InvPos s := by
  induction h with
  | init sym =>
    exact ⟨fun _ hx => absurd hx (List.not_mem_nil _),
      fun _ hx => absurd hx (List.not_mem_nil _),
      fun _ hx => absurd hx (List.not_mem_nil _)⟩
  | ev h he ih => exact processEvent_InvPos _ _ he ih
  | snap h ho ih => exact initSnapshot_InvPos _ _ ho ih

end OrderBookEngine

open OrderBookEngine in
/-- C4 counterexample. Claim C4 states that a zero-quantity level is deleted
rather than stored also when a snapshot is loaded into the book. The
initSnapshot load path has no zero filter: fusing a snapshot whose bid list
carries the level (10, 0) into the fresh engine stores that level with
quantity 0, so the resulting reachable state has a book entry that is not
strictly positive. -/
theorem book_positive_counterexample :
    (initSnapshot (engineInit "BTCUSDT") (.success ⟨100, [(10, 0)], [(11, 1)]⟩)).bids =
      [(10, 0)] ∧
    ¬ posLevels (initSnapshot (engineInit "BTCUSDT")
        (.success ⟨100, [(10, 0)], [(11, 1)]⟩)).bids := by
  constructor
  · decide
  · intro h
    have := h (10, 0) (by decide)
    simp at this

open OrderBookEngine in
/-- C4 amended: every entry of the bids map and of the asks map has a
strictly positive quantity in every state reachable under well-formed
inputs, namely when every processed diff carries non-negative quantities
(zero meaning deletion) and every fused snapshot carries strictly positive
quantities. Diff application deletes zero-quantity levels; snapshot loading
stores the snapshot levels verbatim without a zero filter, which is why
snapshot levels must be positive for the invariant to hold. -/
theorem book_positive_amended (s : EngineState) (h : OrderBookEngine.ReachableWF s) :
    posLevels s.bids ∧ posLevels s.asks :=
  ⟨(reachableWF_InvPos h).1, (reachableWF_InvPos h).2.1⟩

open OrderBookEngine in
/-- Witness for the amended C4 theorem at a reachable state with levels on
both sides: a snapshot fuse followed by one applied diff. -/
theorem book_positive_amended_witness :
    posLevels (processEvent (initSnapshot (engineInit "BTCUSDT")
      (.success ⟨100, [(10, 1)], [(11, 1)]⟩)) ⟨101, 101, [(10, 2)], []⟩).bids ∧
    posLevels (processEvent (initSnapshot (engineInit "BTCUSDT")
      (.success ⟨100, [(10, 1)], [(11, 1)]⟩)) ⟨101, 101, [(10, 2)], []⟩).asks :=
  book_positive_amended _
    (ReachableWF.ev
      (ReachableWF.snap (ReachableWF.init "BTCUSDT") (by constructor <;> decide))
      (by constructor <;> decide))
